import Mathlib

/-!
Verification of the kapto rule engine against its specification.

The definitions below are a shallow embedding of the Rust sources:
`src/coordinate.rs`, `src/direction.rs`, `src/game_board.rs`, `src/action.rs`,
`src/ruleset/mod.rs`, `src/ruleset/starting_positions/mod.rs` and
`src/ruleset/starting_positions/placement_area.rs`.

Conventions used throughout:
- Rust machine integers are modelled as `Int`/`Nat`; the `as usize` cast of a
  (possibly negative) `i16` is modelled by `usizeCast`, which reduces modulo
  `2^64` (two's complement reinterpretation on a 64-bit target).
- A Rust panic (a failing `unwrap`, an `unreachable!`) is modelled by the value
  `none` of a surrounding `Option`; a normal return is `some`.
- The dense column-major matrix `Conventional<T>` of the `matrix` crate is a
  `rows`/`columns` pair with a flat value list; element `(r, c)` lives at flat
  index `c * rows + r` (see `index_to_position` in `src/game_board.rs`).
- `HashMap`/`HashSet` contents are modelled as lists iterated in list order.
-/

namespace Kapto

/-- `Color` from `src/game_board.rs`. -/
inductive Color
  | Red
  | Blue
  deriving DecidableEq

/-- `PieceSize` from `src/game_board.rs`. -/
inductive PieceSize
  | Small
  | Large
  deriving DecidableEq

/-- `Piece` from `src/game_board.rs`: the four-variant size-and-color piece
consumed by the board engine. -/
inductive Piece
  | SmallRed
  | LargeRed
  | SmallBlue
  | LargeBlue
  deriving DecidableEq

/-- `Piece::color` from `src/game_board.rs`. -/
def Piece.color : Piece → Color
  | .SmallRed => .Red
  | .LargeRed => .Red
  | .SmallBlue => .Blue
  | .LargeBlue => .Blue

/-- `Piece::size` from `src/game_board.rs`. -/
def Piece.size : Piece → PieceSize
  | .SmallRed => .Small
  | .LargeRed => .Large
  | .SmallBlue => .Small
  | .LargeBlue => .Large

/-- `Coordinate` from `src/coordinate.rs` (`row`, `column` are `i16`). -/
structure Coordinate where
  row : Int
  column : Int
  deriving DecidableEq

/-- `impl Add for Coordinate` from `src/coordinate.rs`, exactly as written
there: `Self::new(self.row + rhs.row, self.column)` — the right operand's
column is dropped. -/
def coordAdd (a b : Coordinate) : Coordinate :=
  ⟨a.row + b.row, a.column⟩

/-- `impl AddAssign for Coordinate` from `src/coordinate.rs` (componentwise,
unlike `coordAdd`): the value of `a` after `a += b`. -/
def coordAddAssign (a b : Coordinate) : Coordinate :=
  ⟨a.row + b.row, a.column + b.column⟩

/-- `impl Sub for Coordinate` from `src/coordinate.rs` (componentwise). -/
def coordSub (a b : Coordinate) : Coordinate :=
  ⟨a.row - b.row, a.column - b.column⟩

/-- `impl Mul<i16> for Coordinate` from `src/coordinate.rs`. -/
def coordMul (a : Coordinate) (k : Int) : Coordinate :=
  ⟨a.row * k, a.column * k⟩

/-- Coordinate addition as the specification describes it (componentwise on
both fields).  Declared only to compare the spec's words with the source's
`coordAdd`; it is not part of the embedding of the code. -/
def specCoordAdd (a b : Coordinate) : Coordinate :=
  ⟨a.row + b.row, a.column + b.column⟩

/-- `Direction` from `src/direction.rs`. -/
inductive Direction
  | North
  | South
  | East
  | West
  | NorthWest
  | NorthEast
  | SouthWest
  | SouthEast
  deriving DecidableEq

/-- `Direction::offset` from `src/direction.rs`. -/
def Direction.offset : Direction → Coordinate
  | .North => ⟨0, -1⟩
  | .South => ⟨0, 1⟩
  | .East => ⟨1, 0⟩
  | .West => ⟨-1, 0⟩
  | .NorthWest => ⟨-1, -1⟩
  | .NorthEast => ⟨1, -1⟩
  | .SouthWest => ⟨-1, 1⟩
  | .SouthEast => ⟨1, 1⟩

/-- `BoardSpace` from `src/game_board.rs`. -/
inductive BoardSpace
  | Invalid
  | Normal (piece : Option Piece)
  | Goal (goalFor : Color) (piece : Option Piece)
  deriving DecidableEq

/-- `GameBoard` from `src/game_board.rs`: a `Conventional<BoardSpace>`
(column-major dense matrix). -/
structure GameBoard where
  rows : Nat
  columns : Nat
  values : List BoardSpace
  deriving DecidableEq

/-- The `as usize` reinterpretation of a signed integer on a 64-bit target:
reduction modulo `2^64` (negative values become huge). -/
def usizeCast (x : Int) : Nat :=
  (x % (2 ^ 64 : Int)).toNat

/-- `Conventional::index` in column-major order: element `(r, c)` at flat
index `c * rows + r`.  Out-of-range access (which panics in Rust) is mapped to
`Invalid`; no theorem below exercises that case, every read is guarded by a
bounds check first. -/
def boardIndex (b : GameBoard) (c : Coordinate) : BoardSpace :=
  b.values.getD (usizeCast c.column * b.rows + usizeCast c.row) .Invalid

/-- `GameBoard::is_valid_position` from `src/game_board.rs`: bounds first
(short-circuit), then the cell must not be `Invalid`. -/
def isValidPosition (b : GameBoard) (c : Coordinate) : Bool :=
  decide (usizeCast c.column < b.columns) &&
    (decide (usizeCast c.row < b.rows) && decide (boardIndex b c ≠ .Invalid))

/-- The occupant stored in a `BoardSpace` (shared by the `Normal`/`Goal`
match arms of `src/game_board.rs`). -/
def spaceOccupant : BoardSpace → Option Piece
  | .Invalid => none
  | .Normal p => p
  | .Goal _ p => p

/-- `GameBoardError` from `src/game_board.rs`. -/
inductive GameBoardError
  | InvalidPosition
  deriving DecidableEq

/-- `GameBoard::piece` from `src/game_board.rs`.  The outer `Option` models
panics: the `unreachable!` arm (an `Invalid` cell surviving the validity
check) is `none`. -/
def pieceAt (b : GameBoard) (c : Coordinate) :
    Option (Except GameBoardError (Option Piece)) :=
  if isValidPosition b c then
    match boardIndex b c with
    | .Invalid => none
    | .Normal p => some (.ok p)
    | .Goal _ p => some (.ok p)
  else some (.error .InvalidPosition)

/-- A `piece_mut(..).unwrap()` read: `none` models the panic of `unwrap` on an
invalid position. -/
def occupantAt (b : GameBoard) (c : Coordinate) : Option (Option Piece) :=
  if isValidPosition b c then some (spaceOccupant (boardIndex b c)) else none

/-- A write through `piece_mut(..).unwrap()`: replaces the occupant of a valid
cell, preserving its `Normal`/`Goal` shell; `none` models the unwrap panic on
an invalid position. -/
def pieceMutSet (b : GameBoard) (c : Coordinate) (v : Option Piece) :
    Option GameBoard :=
  if isValidPosition b c then
    some { b with
      values := b.values.set (usizeCast c.column * b.rows + usizeCast c.row)
        (match boardIndex b c with
         | .Normal _ => .Normal v
         | .Goal g _ => .Goal g v
         | .Invalid => .Invalid) }
  else none

/-- Total number of pieces on a board. -/
def pieceCount (b : GameBoard) : Nat :=
  (b.values.filter (fun s => (spaceOccupant s).isSome)).length

/-- `ActionType` from `src/action.rs`. -/
inductive ActionType
  | move (direction : Direction)
  | jump (directions : List Direction)
  deriving DecidableEq

/-- `Action` from `src/action.rs`. -/
structure Action where
  startPos : Coordinate
  actionType : ActionType
  deriving DecidableEq

/-- `ActionError` from `src/action.rs`, exactly the ten variants declared
there (note `MultipleJumpsForSmall`; there is no `JumpLimitExceeded`). -/
inductive ActionError
  | InvalidStartPosition
  | NoPieceAtStart
  | PieceOnMove (piece : Piece)
  | MoveOffBoard
  | EmptyJump
  | PieceOnJump (piece : Piece)
  | NoPieceJumped
  | JumpOffBoard
  | JumpedBackToPrevPosition
  | MultipleJumpsForSmall
  deriving DecidableEq

/-- `GameBoard::is_valid_move` from `src/game_board.rs`.  The target is
`direction.offset() + start_pos`, using the source's `coordAdd`. -/
def isValidMove (b : GameBoard) (startPos : Coordinate) (d : Direction) :
    Option (Except ActionError Unit) :=
  match pieceAt b (coordAdd d.offset startPos) with
  | none => none
  | some (.error .InvalidPosition) => some (.error .MoveOffBoard)
  | some (.ok (some p)) => some (.error (.PieceOnMove p))
  | some (.ok none) => some (.ok ())

/-- The per-hop walk of `GameBoard::is_valid_jump` from `src/game_board.rs`:
`visited` is the `prev_positions` list, `current` its last element.  Check
order per hop: landing validity, landing occupancy, revisit, then middle
occupancy.  The `.unwrap()` on `self.piece(middle_pos)` panics (`none`) when
the middle position is invalid. -/
def jumpLoop (b : GameBoard) (visited : List Coordinate)
    (current : Coordinate) : List Direction → Option (Except ActionError Unit)
  | [] => some (.ok ())
  | d :: rest =>
    let middle := coordAdd d.offset current
    let landing := coordAdd d.offset middle
    match pieceAt b landing with
    | none => none
    | some (.error .InvalidPosition) => some (.error .JumpOffBoard)
    | some (.ok (some p)) => some (.error (.PieceOnJump p))
    | some (.ok none) =>
      if landing ∈ visited then some (.error .JumpedBackToPrevPosition)
      else
        match pieceAt b middle with
        | none => none
        | some (.error _) => none
        | some (.ok none) => some (.error .NoPieceJumped)
        | some (.ok (some _)) => jumpLoop b (visited ++ [landing]) landing rest

/-- `GameBoard::is_valid_jump` from `src/game_board.rs`: empty-chain check,
then the small-piece single-hop cap (`MultipleJumpsForSmall`), then the walk. -/
def isValidJump (b : GameBoard) (piece : Piece) (startPos : Coordinate)
    (dirs : List Direction) : Option (Except ActionError Unit) :=
  if dirs = [] then some (.error .EmptyJump)
  else if piece.size = PieceSize.Small ∧ 1 < dirs.length then
    some (.error .MultipleJumpsForSmall)
  else jumpLoop b [startPos] startPos dirs

/-- `GameBoard::is_valid_action` from `src/game_board.rs`. -/
def isValidAction (b : GameBoard) (a : Action) :
    Option (Except ActionError Unit) :=
  match pieceAt b a.startPos with
  | none => none
  | some (.error .InvalidPosition) => some (.error .InvalidStartPosition)
  | some (.ok none) => some (.error .NoPieceAtStart)
  | some (.ok (some piece)) =>
    match a.actionType with
    | .move d => isValidMove b a.startPos d
    | .jump dirs => isValidJump b piece a.startPos dirs

/-- The `Jump` replay loop of `GameBoard::apply_action` from
`src/game_board.rs`, after validation and clearing of the start cell.  At each
hop: `middle = offset + position`; an opposing occupant is reported (collected
in `captures`, in callback-invocation order) and cleared, a same-color one is
left; `position = offset * 2 + position`; the moved piece is written only
after the loop.  `none` models the panics of the two `unwrap`s on the middle
cell and of the final write. -/
def applyJumpLoop (piece : Piece) (board : GameBoard)
    (captures : List (Coordinate × Piece)) (position : Coordinate) :
    List Direction → Option (Except ActionError (GameBoard × List (Coordinate × Piece)))
  | [] =>
    match pieceMutSet board position (some piece) with
    | none => none
    | some b2 => some (.ok (b2, captures))
  | d :: rest =>
    let middle := coordAdd d.offset position
    match occupantAt board middle with
    | none => none
    | some none => none
    | some (some mp) =>
      let next := coordAdd (coordMul d.offset 2) position
      if mp.color = piece.color then applyJumpLoop piece board captures next rest
      else
        match pieceMutSet board middle none with
        | none => none
        | some b2 => applyJumpLoop piece b2 (captures ++ [(middle, mp)]) next rest

/-- The post-validation body of `GameBoard::apply_action` from
`src/game_board.rs`, operating on the clone: read and clear the start cell,
then place for `Move` or replay the chain for `Jump`.  The capture callback is
modelled by returning the list of `(position, piece)` pairs it would receive. -/
def applyActionCore (board : GameBoard) (a : Action) :
    Option (Except ActionError (GameBoard × List (Coordinate × Piece))) :=
  match occupantAt board a.startPos with
  | none => none
  | some none => none
  | some (some piece) =>
    match pieceMutSet board a.startPos none with
    | none => none
    | some b1 =>
      match a.actionType with
      | .move d =>
        match pieceMutSet b1 (coordAdd d.offset a.startPos) (some piece) with
        | none => none
        | some b2 => some (.ok (b2, []))
      | .jump dirs => applyJumpLoop piece b1 [] a.startPos dirs

/-- `GameBoard::apply_action` from `src/game_board.rs`: validate, clone, then
apply on the clone. -/
def applyAction (b : GameBoard) (a : Action) :
    Option (Except ActionError (GameBoard × List (Coordinate × Piece))) :=
  match isValidAction b a with
  | none => none
  | some (.error e) => some (.error e)
  | some (.ok _) => applyActionCore b a

/-- `GameBoard::apply_action` with the receiver threaded explicitly.  The Rust
method takes `&self`: validation reads the receiver, `self.clone()` copies it,
and every subsequent write targets the clone.  The second component is the
receiver's state when the call returns. -/
def applyActionThreaded (self : GameBoard) (a : Action) :
    Option (Except ActionError (GameBoard × List (Coordinate × Piece))) × GameBoard :=
  let validation := isValidAction self a
  let selfAfterValidation := self
  match validation with
  | none => (none, selfAfterValidation)
  | some (.error e) => (some (.error e), selfAfterValidation)
  | some (.ok _) =>
    let cloned := selfAfterValidation
    (applyActionCore cloned a, selfAfterValidation)

/-- The play-time error taxonomy as the specification lists it in §7,
including `JumpLimitExceeded`.  Declared only to compare the spec's error
names with the source's `ActionError`; it is not part of the embedding of the
code. -/
inductive SpecActionError
  | InvalidStartPosition
  | NoPieceAtStart
  | PieceOnMove (piece : Piece)
  | MoveOffBoard
  | EmptyJump
  | PieceOnJump (piece : Piece)
  | NoPieceJumped
  | JumpOffBoard
  | JumpedBackToPrevPosition
  | JumpLimitExceeded
  deriving DecidableEq

/-- Identifies each source error variant with the identically named variant of
the specification's list; `MultipleJumpsForSmall` has no counterpart there and
maps to `none`. -/
def actionErrorToSpec : ActionError → Option SpecActionError
  | .InvalidStartPosition => some .InvalidStartPosition
  | .NoPieceAtStart => some .NoPieceAtStart
  | .PieceOnMove p => some (.PieceOnMove p)
  | .MoveOffBoard => some .MoveOffBoard
  | .EmptyJump => some .EmptyJump
  | .PieceOnJump p => some (.PieceOnJump p)
  | .NoPieceJumped => some .NoPieceJumped
  | .JumpOffBoard => some .JumpOffBoard
  | .JumpedBackToPrevPosition => some .JumpedBackToPrevPosition
  | .MultipleJumpsForSmall => none

/-- `Space` from `src/ruleset/mod.rs`. -/
inductive Space
  | Invalid
  | Normal
  | Goal (color : Color)
  deriving DecidableEq

/-- `BoardType` from `src/ruleset/mod.rs`.  `rows`/`columns` are `u8` values
(hence `Nat`); `goal_locations` is a `Vec<u8>`, kept as an `Int` list so that
membership tests against a signed coordinate column are direct. -/
inductive BoardType
  | Rectangular (rows : Nat) (columns : Nat) (goalLocations : List Int)
  | Custom (rows : Nat) (columns : Nat) (values : List Space)
  deriving DecidableEq

/-- `BoardType::rows` from `src/ruleset/mod.rs`. -/
def BoardType.rowsOf : BoardType → Nat
  | .Rectangular rows _ _ => rows + 2
  | .Custom rows _ _ => rows

/-- `BoardType::columns` from `src/ruleset/mod.rs`. -/
def BoardType.columnsOf : BoardType → Nat
  | .Rectangular _ columns _ => columns
  | .Custom _ columns _ => columns

/-- `BoardType::get_space` from `src/ruleset/mod.rs`.  Signed comparisons: a
negative row or column passes the first guard.  For `Custom`, the matrix read
is column-major like `boardIndex`. -/
def BoardType.getSpace : BoardType → Coordinate → Space
  | .Rectangular rows cols goals, c =>
    if (rows : Int) + 2 ≤ c.row ∨ (cols : Int) ≤ c.column then .Invalid
    else if c.row = 0 ∨ c.row = (rows : Int) + 1 then
      if c.column ∈ goals then
        .Goal (if c.row = 0 then .Red else .Blue)
      else .Invalid
    else .Normal
  | .Custom rows cols vals, c =>
    if (rows : Int) ≤ c.row ∨ (cols : Int) ≤ c.column then .Invalid
    else vals.getD (usizeCast c.column * rows + usizeCast c.row) .Invalid

/-- `BoardTypeVerifyError` from `src/ruleset/mod.rs`. -/
inductive BoardTypeVerifyError
  | InvalidRows (n : Nat)
  | InvalidColumns (n : Nat)
  | InvalidGoalLocation (n : Int)
  deriving DecidableEq

/-- The goal-location scan of `BoardType::verify` from `src/ruleset/mod.rs`. -/
def goalLocationsCheck (columns : Nat) :
    List Int → Except BoardTypeVerifyError Unit
  | [] => .ok ()
  | g :: rest =>
    if (columns : Int) ≤ g then .error (.InvalidGoalLocation g)
    else goalLocationsCheck columns rest

/-- `BoardType::verify` from `src/ruleset/mod.rs`: rows in `[1, u8::MAX - 1]`,
columns at least 2, every goal location below `columns`. -/
def BoardType.verify : BoardType → Except BoardTypeVerifyError Unit
  | .Rectangular rows cols goals =>
    if rows < 1 ∨ 254 < rows then .error (.InvalidRows rows)
    else if cols < 2 then .error (.InvalidColumns cols)
    else goalLocationsCheck cols goals
  | .Custom _ _ _ => .ok ()

/-- `flip_coordinate` from `src/ruleset/mod.rs`. -/
def flipCoordinate (board : BoardType) (c : Coordinate) : Coordinate :=
  ⟨(board.rowsOf : Int) - c.row - 1, c.column⟩

/-- `rotate_coordinate` from `src/ruleset/mod.rs`. -/
def rotateCoordinate (board : BoardType) (c : Coordinate) : Coordinate :=
  ⟨(board.rowsOf : Int) - c.row - 1, (board.columnsOf : Int) - c.column - 1⟩

/-- Modelled from the spec: `src/ruleset/mod.rs` declares
`pub mod piece_definition;` but `piece_definition.rs` is not present under
`src/`; the field list follows §3 of the spec and the construction sites in
`src/ruleset/standard.rs`.  Direction sets are the `u8` bit-sets of
`src/direction.rs` (`All` = 255). -/
inductive MoveRule
  | AnyDirection (limit : Nat) (directions : Nat)
  deriving DecidableEq

/-- Modelled from the spec: part of the absent `piece_definition.rs`
(see `MoveRule`). -/
inductive JumpRule
  | NoSameStart
  deriving DecidableEq

/-- Modelled from the spec: part of the absent `piece_definition.rs`
(`Unlimited` = no cap, `Limited` = cap on hops in one chain). -/
inductive JumpLimit
  | Unlimited (directions : Nat)
  | Limited (limit : Nat) (directions : Nat)
  deriving DecidableEq

/-- Modelled from the spec: part of the absent `piece_definition.rs`. -/
inductive CaptureRule
  | JumpOver
  deriving DecidableEq

/-- Modelled from the spec: part of the absent `piece_definition.rs`. -/
inductive CaptureTarget
  | EnemyOnly
  deriving DecidableEq

/-- Modelled from the spec: part of the absent `piece_definition.rs`. -/
inductive CaptureTimingRule
  | Immediate
  | AfterTurn
  deriving DecidableEq

/-- Modelled from the spec: part of the absent `piece_definition.rs`. -/
inductive CaptureRequirement
  | Optional
  | Forced (priority : Nat)
  deriving DecidableEq

/-- Modelled from the spec: part of the absent `piece_definition.rs`. -/
inductive GoalMovementRule
  | Free
  deriving DecidableEq

/-- Modelled from the spec: `PieceDefinition` of the absent
`piece_definition.rs`, fields per §3 and `src/ruleset/standard.rs`. -/
structure PieceDefinition where
  name : String
  captureRules : List (CaptureRule × CaptureTarget)
  jumpRule : JumpRule
  captureTimingRule : CaptureTimingRule
  captureRequirement : CaptureRequirement
  jumpLimit : JumpLimit
  moveRule : MoveRule
  goalMoveRule : GoalMovementRule
  deriving DecidableEq

/-- Modelled from the spec: error type of the absent `piece_definition.rs`
verification (§4.2: internal consistency, e.g. non-empty rule sets). -/
inductive PieceDefinitionError
  | EmptyMoveDirections
  | EmptyJumpDirections
  deriving DecidableEq

/-- The direction bit-set of a `JumpLimit`. -/
def JumpLimit.dirs : JumpLimit → Nat
  | .Unlimited d => d
  | .Limited _ d => d

/-- Modelled from the spec: `PieceDefinition::verify` of the absent
`piece_definition.rs` (§4.2 "internal consistency, e.g. non-empty rule
sets"): the move and jump direction sets must be non-empty. -/
def PieceDefinition.verify (p : PieceDefinition) :
    Except PieceDefinitionError Unit :=
  match p.moveRule with
  | .AnyDirection _ dirs =>
    if dirs = 0 then .error .EmptyMoveDirections
    else if p.jumpLimit.dirs = 0 then .error .EmptyJumpDirections
    else .ok ()

/-- The "Big" piece of `src/ruleset/standard.rs`. -/
def bigDef : PieceDefinition where
  name := "Big"
  captureRules := [(.JumpOver, .EnemyOnly)]
  jumpRule := .NoSameStart
  captureTimingRule := .AfterTurn
  captureRequirement := .Forced 10
  jumpLimit := .Unlimited 255
  moveRule := .AnyDirection 1 255
  goalMoveRule := .Free

/-- The "Little" piece of `src/ruleset/standard.rs` (jump limit `Limited 1`). -/
def littleDef : PieceDefinition where
  name := "Little"
  captureRules := [(.JumpOver, .EnemyOnly)]
  jumpRule := .NoSameStart
  captureTimingRule := .AfterTurn
  captureRequirement := .Forced 10
  jumpLimit := .Limited 1 255
  moveRule := .AnyDirection 1 255
  goalMoveRule := .Free

/-- `AlternationType` from `src/ruleset/starting_positions/alteration_type.rs`. -/
inductive AlternationType
  | TurnsCount (perTurnCount : Nat)
  | TurnsPoints (perTurnPoints : Nat) (hardLimit : Bool)
  | Points
  | WholePlacement
  | Hidden
  deriving DecidableEq

/-- `PieceLimit` from `src/ruleset/starting_positions/piece_limit.rs`
(maps kept as association lists). -/
inductive PieceLimit
  | TotalLimit (limit : Nat)
  | TypeCountLimit (limits : List (Nat × Nat))
  | PointLimit (pointValues : List (Nat × Nat)) (pointLimit : Nat)
  deriving DecidableEq

/-- `PlacementArea` from `src/ruleset/starting_positions/placement_area.rs`
(hash sets and maps kept as lists in iteration order). -/
inductive PlacementArea
  | Half
  | MirroredFlipped (positions : List Coordinate)
  | MirroredRotated (positions : List Coordinate)
  | NonMirrored (colorMap : List (Color × List Coordinate))
  deriving DecidableEq

/-- `PlacementAreaError` from
`src/ruleset/starting_positions/placement_area.rs`. -/
inductive PlacementAreaError
  | PositionCannotPlace (space : Space) (position : Coordinate)
  | PositionCollision (position : Coordinate)
  | ColorNotFound (color : Color)
  deriving DecidableEq

/-- `HashSet::insert`: returns whether the element was newly inserted,
together with the updated set. -/
def insertRet (found : List Coordinate) (c : Coordinate) :
    Bool × List Coordinate :=
  if c ∈ found then (false, found) else (true, c :: found)

/-- The `MirroredFlipped`/`MirroredRotated` loop of `PlacementArea::verify`
from `src/ruleset/starting_positions/placement_area.rs`, exactly as written:
`found` starts as a clone of the whole position set, each position is
bounds-checked, then `!found.insert(position) || found.insert(opposite)`
reports `PositionCollision`. -/
def verifyMirroredArea (flip : Coordinate → Coordinate) (board : BoardType)
    (found : List Coordinate) :
    List Coordinate → Except PlacementAreaError Unit
  | [] => .ok ()
  | p :: rest =>
    if p.row < 0 ∨ (board.rowsOf : Int) ≤ p.row ∨ p.column < 0 ∨
        (board.columnsOf : Int) ≤ p.column then
      .error (.PositionCannotPlace .Invalid p)
    else
      let r1 := insertRet found p
      if r1.1 = false then .error (.PositionCollision p)
      else
        let r2 := insertRet r1.2 (flip p)
        if r2.1 = true then .error (.PositionCollision p)
        else verifyMirroredArea flip board r2.2 rest

/-- The per-color coordinate loop of the `NonMirrored` arm of
`PlacementArea::verify`. -/
def nonMirroredCoords (found : List Coordinate) :
    List Coordinate → Except PlacementAreaError (List Coordinate)
  | [] => .ok found
  | c :: rest =>
    let r := insertRet found c
    if r.1 = false then .error (.PositionCollision c)
    else nonMirroredCoords r.2 rest

/-- The color loop of the `NonMirrored` arm of `PlacementArea::verify`;
colors are iterated in declaration order (`Red`, `Blue`). -/
def nonMirroredColors (m : List (Color × List Coordinate))
    (found : List Coordinate) : List Color → Except PlacementAreaError Unit
  | [] => .ok ()
  | col :: rest =>
    match (m.find? (fun e => e.1 == col)).map (fun e => e.2) with
    | none => .error (.ColorNotFound col)
    | some coords =>
      match nonMirroredCoords found coords with
      | .error e => .error e
      | .ok found1 => nonMirroredColors m found1 rest

/-- `PlacementArea::verify` from
`src/ruleset/starting_positions/placement_area.rs`. -/
def PlacementArea.verify (pa : PlacementArea) (board : BoardType) :
    Except PlacementAreaError Unit :=
  match pa with
  | .Half => .ok ()
  | .MirroredFlipped positions =>
    verifyMirroredArea (flipCoordinate board) board positions positions
  | .MirroredRotated positions =>
    verifyMirroredArea (rotateCoordinate board) board positions positions
  | .NonMirrored colorMap => nonMirroredColors colorMap [] [.Red, .Blue]

/-- `StartingPositions` from `src/ruleset/starting_positions/mod.rs`
(hash maps kept as association lists in iteration order). -/
inductive StartingPositions
  | MirroredFlipped (piecePositions : List (Nat × List Coordinate))
  | MirroredRotated (piecePositions : List (Nat × List Coordinate))
  | NotMirrored (colorPositions : List (Color × List (Nat × List Coordinate)))
  | Placement (firstColor : Color) (alternationType : AlternationType)
      (placementArea : PlacementArea) (pieceLimits : List PieceLimit)
  deriving DecidableEq

/-- `StartingPositionsError` from `src/ruleset/starting_positions/mod.rs`. -/
inductive StartingPositionsError
  | ColorNotFound (color : Color)
  | PieceIndexNotFound (index : Nat)
  | DuplicatePosition (piece : PieceDefinition) (position : Coordinate)
  | InvalidPositionForBoard (space : Space) (piece : PieceDefinition)
      (position : Coordinate)
  deriving DecidableEq

/-- `VictoryCondition` from `src/ruleset/mod.rs` (reference payloads kept by
value). -/
inductive VictoryCondition
  | GoalCount (amount : Nat) (validPieces : List PieceDefinition)
  | AllCaptured
  | PointDifference (n : Nat)
  deriving DecidableEq

/-- `Ruleset` from `src/ruleset/mod.rs`. -/
structure Ruleset where
  pieces : List PieceDefinition
  boardType : BoardType
  startingPositions : StartingPositions
  victoryConditions : List VictoryCondition
  deriving DecidableEq

/-- `Ruleset::get_piece` from `src/ruleset/mod.rs`. -/
def Ruleset.getPiece (r : Ruleset) (index : Nat) : Option PieceDefinition :=
  r.pieces.get? index

/-- The inner position loop shared by `verify_mirrored_flipped` and
`verify_mirrored_rotated` of `src/ruleset/starting_positions/mod.rs`:
duplicate check against `found`, then the position and its mirror image must
both resolve to `Space::Normal`. -/
def mirroredPositionsCheck (mirror : Coordinate → Coordinate)
    (board : BoardType) (piece : PieceDefinition) (found : List Coordinate) :
    List Coordinate → Except StartingPositionsError (List Coordinate)
  | [] => .ok found
  | pos :: rest =>
    if pos ∈ found then .error (.DuplicatePosition piece pos)
    else
      match board.getSpace pos with
      | .Normal =>
        match board.getSpace (mirror pos) with
        | .Normal => mirroredPositionsCheck mirror board piece (pos :: found) rest
        | s => .error (.InvalidPositionForBoard s piece pos)
      | s => .error (.InvalidPositionForBoard s piece pos)

/-- The entry loop shared by `verify_mirrored_flipped` and
`verify_mirrored_rotated`: each piece index must resolve in the catalog. -/
def mirroredEntriesCheck (mirror : Coordinate → Coordinate)
    (board : BoardType) (r : Ruleset) (found : List Coordinate) :
    List (Nat × List Coordinate) → Except StartingPositionsError Unit
  | [] => .ok ()
  | (idx, positions) :: rest =>
    match r.getPiece idx with
    | none => .error (.PieceIndexNotFound idx)
    | some piece =>
      match mirroredPositionsCheck mirror board piece found positions with
      | .error e => .error e
      | .ok found1 => mirroredEntriesCheck mirror board r found1 rest

/-- The inner loops of `verify_not_mirrored` from
`src/ruleset/starting_positions/mod.rs`: index resolution, duplicates scoped
across the whole structure, and a single `Normal`-space check per position. -/
def notMirroredPositionsCheck (board : BoardType) (piece : PieceDefinition)
    (found : List Coordinate) :
    List Coordinate → Except StartingPositionsError (List Coordinate)
  | [] => .ok found
  | pos :: rest =>
    if pos ∈ found then .error (.DuplicatePosition piece pos)
    else
      match board.getSpace pos with
      | .Normal => notMirroredPositionsCheck board piece (pos :: found) rest
      | s => .error (.InvalidPositionForBoard s piece pos)

/-- The per-color entry loop of `verify_not_mirrored`. -/
def notMirroredEntriesCheck (board : BoardType) (r : Ruleset)
    (found : List Coordinate) :
    List (Nat × List Coordinate) → Except StartingPositionsError (List Coordinate)
  | [] => .ok found
  | (idx, positions) :: rest =>
    match r.getPiece idx with
    | none => .error (.PieceIndexNotFound idx)
    | some piece =>
      match notMirroredPositionsCheck board piece found positions with
      | .error e => .error e
      | .ok found1 => notMirroredEntriesCheck board r found1 rest

/-- The color loop of `verify_not_mirrored`; colors are iterated in
declaration order (`Red`, `Blue`) and every color must have an entry. -/
def notMirroredColorsCheck (board : BoardType) (r : Ruleset)
    (m : List (Color × List (Nat × List Coordinate)))
    (found : List Coordinate) : List Color → Except StartingPositionsError Unit
  | [] => .ok ()
  | col :: rest =>
    match (m.find? (fun e => e.1 == col)).map (fun e => e.2) with
    | none => .error (.ColorNotFound col)
    | some piecePositions =>
      match notMirroredEntriesCheck board r found piecePositions with
      | .error e => .error e
      | .ok found1 => notMirroredColorsCheck board r m found1 rest

/-- `StartingPositions::verify` from `src/ruleset/starting_positions/mod.rs`.
The `Placement` arm dispatches to `verify_placement`, whose body in the source
is an empty block (the function is unimplemented); that missing body is
modelled as the panic value `none`.  The three implemented arms return
`some`. -/
def StartingPositions.verify (sp : StartingPositions) (board : BoardType)
    (r : Ruleset) : Option (Except StartingPositionsError Unit) :=
  match sp with
  | .MirroredFlipped m =>
    some (mirroredEntriesCheck (flipCoordinate board) board r [] m)
  | .MirroredRotated m =>
    some (mirroredEntriesCheck (rotateCoordinate board) board r [] m)
  | .NotMirrored m => some (notMirroredColorsCheck board r m [] [.Red, .Blue])
  | .Placement _ _ _ _ => none

/-- `RulesetError` from `src/ruleset/mod.rs`. -/
inductive RulesetError
  | PieceDuplicated (piece : PieceDefinition)
  | PieceDefinitionError (e : PieceDefinitionError)
  | BoardTypeVerifyError (e : BoardTypeVerifyError)
  deriving DecidableEq

/-- The piece-catalog loop of `Ruleset::verify` from `src/ruleset/mod.rs`:
for each piece, `piece.verify()?`, then rejection of structural duplicates
already seen (`PieceDuplicated`). -/
def piecesVerifyLoop (seen : List PieceDefinition) :
    List PieceDefinition → Except RulesetError Unit
  | [] => .ok ()
  | p :: rest =>
    match p.verify with
    | .error e => .error (.PieceDefinitionError e)
    | .ok _ =>
      if p ∈ seen then .error (.PieceDuplicated p)
      else piecesVerifyLoop (p :: seen) rest

/-- `Ruleset::verify` from `src/ruleset/mod.rs`, exactly as written there:
the piece-catalog loop, then `self.board_type.verify()?`, then `Ok(())`.  No
other field is consulted. -/
def Ruleset.verify (r : Ruleset) : Except RulesetError Unit :=
  match piecesVerifyLoop [] r.pieces with
  | .error e => .error e
  | .ok _ =>
    match r.boardType.verify with
    | .error e => .error (.BoardTypeVerifyError e)
    | .ok _ => .ok ()

/-!  Concrete boards, actions and rulesets used by the theorems below.
Boards are stored column-major: index `c * rows + r` holds cell `(r, c)`. -/

/-- A 3x3 all-`Normal` board: `SmallRed` at `(0,0)`, `SmallBlue` at `(1,1)`,
`LargeBlue` at `(2,2)`. -/
def B1 : GameBoard where
  rows := 3
  columns := 3
  values :=
    [.Normal (some .SmallRed), .Normal none, .Normal none,
     .Normal none, .Normal (some .SmallBlue), .Normal none,
     .Normal none, .Normal none, .Normal (some .LargeBlue)]

/-- A single south-east jump from `(0,0)`. -/
def A1 : Action := ⟨⟨0, 0⟩, .jump [.SouthEast]⟩

/-- The board `applyAction B1 A1` produces: every cell cleared except the
jumper rewritten at `(2,2)` (over the cell `LargeBlue` occupied), while the
validated landing `(2,1)` stays empty. -/
def B1after : GameBoard where
  rows := 3
  columns := 3
  values :=
    [.Normal none, .Normal none, .Normal none,
     .Normal none, .Normal none, .Normal none,
     .Normal none, .Normal none, .Normal (some .SmallRed)]

/-- A 3x3 all-`Normal` board: `SmallRed` at `(0,1)`, `SmallBlue` at `(1,0)`,
`(1,1)` empty. -/
def B3 : GameBoard where
  rows := 3
  columns := 3
  values :=
    [.Normal none, .Normal (some .SmallBlue), .Normal none,
     .Normal (some .SmallRed), .Normal none, .Normal none,
     .Normal none, .Normal none, .Normal none]

/-- A 3x1 all-`Normal` board: `LargeRed` at `(0,0)`, `SmallBlue` at `(1,0)`,
`(2,0)` empty. -/
def B5c : GameBoard where
  rows := 3
  columns := 1
  values := [.Normal (some .LargeRed), .Normal (some .SmallBlue), .Normal none]

/-- A 3x1 all-`Normal`, all-empty board. -/
def B5w : GameBoard where
  rows := 3
  columns := 1
  values := [.Normal none, .Normal none, .Normal none]

/-- A 3x1 board whose middle cell `(1,0)` is `Invalid`: `SmallRed` at `(0,0)`,
`(2,0)` empty. -/
def B6 : GameBoard where
  rows := 3
  columns := 1
  values := [.Normal (some .SmallRed), .Invalid, .Normal none]

/-- The board type of `src/ruleset/standard.rs` scaled down: 2 interior rows,
2 columns, goal column 0. -/
def BT10 : BoardType := .Rectangular 2 2 [0]

/-- A ruleset with the standard piece catalog and board but whose
`MirroredFlipped` starting positions reference the nonexistent catalog index
5. -/
def R7 : Ruleset where
  pieces := [bigDef, littleDef]
  boardType := .Rectangular 10 10 [4, 5]
  startingPositions := .MirroredFlipped [(5, [⟨1, 0⟩])]
  victoryConditions := [.AllCaptured]

/-- A ruleset with a duplicated piece catalog entry. -/
def R7dup : Ruleset where
  pieces := [littleDef, littleDef]
  boardType := .Rectangular 10 10 [4, 5]
  startingPositions := .MirroredFlipped []
  victoryConditions := [.AllCaptured]

/-!  Helper lemmas shared by the claim theorems. -/

/-- On a valid position, `GameBoard::piece` returns the cell occupant. -/
theorem pieceAt_of_valid (b : GameBoard) (c : Coordinate)
    (h : isValidPosition b c = true) :
    pieceAt b c = some (.ok (spaceOccupant (boardIndex b c))) := by
  have hne : boardIndex b c ≠ .Invalid := by
    simp only [isValidPosition, Bool.and_eq_true, decide_eq_true_eq] at h
    exact h.2.2
  unfold pieceAt
  rw [if_pos h]
  cases hb : boardIndex b c with
  | Invalid => exact absurd hb hne
  | Normal p => simp [spaceOccupant]
  | Goal g p => simp [spaceOccupant]

/-- On an invalid position, `GameBoard::piece` reports `InvalidPosition`. -/
theorem pieceAt_of_invalid (b : GameBoard) (c : Coordinate)
    (h : isValidPosition b c = false) :
    pieceAt b c = some (.error .InvalidPosition) := by
  unfold pieceAt
  rw [if_neg (by simp [h])]

/-- The per-hop walk can never surface the pre-walk small-piece cap error. -/
theorem jumpLoop_ne_small (dirs : List Direction) :
    ∀ (b : GameBoard) (visited : List Coordinate) (current : Coordinate),
      jumpLoop b visited current dirs ≠
        some (.error .MultipleJumpsForSmall) := by
  induction dirs with
  | nil => intro b v c h; simp [jumpLoop] at h
  | cons d rest ih =>
    intro b v c h
    simp only [jumpLoop] at h
    cases hp : pieceAt b (coordAdd d.offset (coordAdd d.offset c)) with
    | none => rw [hp] at h; exact Option.noConfusion h
    | some r =>
      rw [hp] at h
      cases r with
      | error e => cases e; simp at h
      | ok occ =>
        cases occ with
        | some p => simp at h
        | none =>
          by_cases hm : coordAdd d.offset (coordAdd d.offset c) ∈ v
          · rw [if_pos hm] at h; simp at h
          · rw [if_neg hm] at h
            cases hq : pieceAt b (coordAdd d.offset c) with
            | none => rw [hq] at h; exact Option.noConfusion h
            | some r2 =>
              rw [hq] at h
              cases r2 with
              | error e => exact Option.noConfusion h
              | ok occ2 =>
                cases occ2 with
                | none => simp at h
                | some q => exact ih b _ _ h

/-- The `as usize` cast compared against a small bound agrees with the signed
comparison exactly on non-negative inputs. -/
theorem usizeCast_lt_iff (x : Int) (n : Nat) (hn : n ≤ 2 ^ 32)
    (h1 : -(2 ^ 15) ≤ x) (h2 : x < 2 ^ 15) :
    (usizeCast x < n) ↔ (0 ≤ x ∧ x < (n : Int)) := by
  unfold usizeCast
  omega

/-!  Claim theorems. -/

/-- Claim C8 (status: code_bug).  Coordinate addition is claimed to be
componentwise with commutativity and `(a + b) - b = a`; the source's `Add`
returns `(self.row + rhs.row, self.column)`, dropping the right operand's
column, so at `a = (0,0)`, `b = (0,1)` the sum is `(0,0)` instead of `(0,1)`,
commutativity and the subtraction inverse fail, and the source's own
`AddAssign` (componentwise) disagrees with its `Add`. -/
theorem C8_add_drops_rhs_column :
    coordAdd ⟨0, 0⟩ ⟨0, 1⟩ = ⟨0, 0⟩ ∧
    specCoordAdd ⟨0, 0⟩ ⟨0, 1⟩ = ⟨0, 1⟩ ∧
    coordAdd ⟨0, 0⟩ ⟨0, 1⟩ ≠ specCoordAdd ⟨0, 0⟩ ⟨0, 1⟩ ∧
    coordAdd ⟨0, 0⟩ ⟨0, 1⟩ ≠ coordAdd ⟨0, 1⟩ ⟨0, 0⟩ ∧
    coordSub (coordAdd ⟨0, 0⟩ ⟨0, 1⟩) ⟨0, 1⟩ ≠ ⟨0, 0⟩ ∧
    coordAddAssign ⟨0, 0⟩ ⟨0, 1⟩ = ⟨0, 1⟩ := by
  refine ⟨rfl, rfl, by decide, by decide, by decide, rfl⟩

/-- Claim C2 (status: confirmed).  `apply_action` takes `&self`, validates by
reading the receiver, clones it and edits only the clone: threading the
receiver through the call returns exactly the pure result together with the
untouched receiver, for every board and action, on success, error and panic
alike. -/
theorem C2_applyAction_receiver_unchanged :
    ∀ (b : GameBoard) (a : Action),
      applyActionThreaded b a = (applyAction b a, b) := by
  intro b a
  unfold applyActionThreaded applyAction
  cases hv : isValidAction b a with
  | none => rfl
  | some r => cases r with
    | error e => rfl
    | ok u => rfl

/-- Claim C3, counterexample.  The claim says the move target is
`start + offset(direction)` componentwise; on `B3`, moving east from `(0,1)`,
the componentwise target `(1,1)` is empty, yet validation fails with
`PieceOnMove(SmallBlue)` because the code's target
`offset + start = (1,0)` took its column from the offset. -/
theorem C3_cex_move_target :
    isValidMove B3 ⟨0, 1⟩ .East = some (.error (.PieceOnMove .SmallBlue)) ∧
    specCoordAdd ⟨0, 1⟩ (Direction.offset .East) = ⟨1, 1⟩ ∧
    pieceAt B3 ⟨1, 1⟩ = some (.ok none) := by
  refine ⟨rfl, rfl, rfl⟩

/-- Claim C3 (status: corrected).  Move validation computes the target as
`offset(direction) + start` with the source's `Add` (row sums, column taken
from the offset), fails `MoveOffBoard` when that target is off-board or
`Invalid`, fails `PieceOnMove(occupant)` when it is occupied, and otherwise
succeeds; the moving piece's move rule is never consulted. -/
theorem C3_move_semantics :
    ∀ (b : GameBoard) (s : Coordinate) (d : Direction),
      isValidMove b s d =
        (if isValidPosition b (coordAdd (Direction.offset d) s) then
          match spaceOccupant (boardIndex b (coordAdd (Direction.offset d) s)) with
          | some p => some (.error (.PieceOnMove p))
          | none => some (.ok ())
        else some (.error .MoveOffBoard)) := by
  intro b s d
  by_cases h : isValidPosition b (coordAdd (Direction.offset d) s) = true
  · rw [if_pos h]
    unfold isValidMove
    rw [pieceAt_of_valid _ _ h]
    cases spaceOccupant (boardIndex b (coordAdd (Direction.offset d) s)) with
    | none => rfl
    | some p => rfl
  · rw [if_neg (by simpa using h)]
    unfold isValidMove
    rw [pieceAt_of_invalid _ _ (by simpa using h)]

/-- Claim C4, counterexample.  A `Small` piece attempting a two-hop chain
(its catalog jump limit per the standard rules is `Limited 1`) is rejected,
but with `MultipleJumpsForSmall`: the source's `ActionError` has no variant
matching the spec's `JumpLimitExceeded`. -/
theorem C4_cex_error_name :
    Piece.SmallRed.size = .Small ∧
    littleDef.jumpLimit = .Limited 1 255 ∧
    isValidJump B3 .SmallRed ⟨0, 0⟩ [.East, .East] =
      some (.error .MultipleJumpsForSmall) ∧
    actionErrorToSpec .MultipleJumpsForSmall = none := by
  refine ⟨rfl, rfl, rfl, rfl⟩

/-- Claim C4 (status: corrected).  Jump validation fails with
`MultipleJumpsForSmall` exactly when the piece's size is `Small` and the
chain has more than one hop — the legacy single-hop cap; large pieces are
uncapped, and no chain-length error exists for them. -/
theorem C4_jump_cap_semantics :
    ∀ (b : GameBoard) (p : Piece) (s : Coordinate) (dirs : List Direction),
      isValidJump b p s dirs = some (.error .MultipleJumpsForSmall) ↔
        (p.size = PieceSize.Small ∧ 1 < dirs.length) := by
  intro b p s dirs
  unfold isValidJump
  by_cases hd : dirs = []
  · subst hd; simp
  · rw [if_neg hd]
    by_cases hs : p.size = PieceSize.Small ∧ 1 < dirs.length
    · rw [if_pos hs]; simp [hs]
    · rw [if_neg hs]
      constructor
      · intro h; exact absurd h (jumpLoop_ne_small dirs b [s] s)
      · intro h; exact absurd h hs

/-- Claim C5, counterexample.  On `B5c`, the chain east-then-west lands back
on the start coordinate — the first entry of the visited list — with every
hop otherwise legal, yet validation fails with `PieceOnJump(LargeRed)`, not
`JumpedBackToPrevPosition`: during validation the jumper still occupies the
start, and the occupied-landing check precedes the revisit check. -/
theorem C5_cex_jump_back_to_start :
    isValidJump B5c .LargeRed ⟨0, 0⟩ [.East, .West] =
      some (.error (.PieceOnJump .LargeRed)) ∧
    coordAdd (Direction.offset .West)
      (coordAdd (Direction.offset .West) ⟨2, 0⟩) = ⟨0, 0⟩ ∧
    pieceAt B5c ⟨0, 0⟩ = some (.ok (some .LargeRed)) ∧
    ActionError.PieceOnJump .LargeRed ≠ ActionError.JumpedBackToPrevPosition := by
  refine ⟨rfl, rfl, rfl, by decide⟩

/-- Claim C5 (status: corrected).  A hop whose landing is on-board, empty and
equal to a coordinate already visited in the chain fails with
`JumpedBackToPrevPosition` even when the hop is otherwise fully legal; a
landing equal to the still-occupied start instead fails `PieceOnJump`. -/
theorem C5_revisit_previous_landing :
    ∀ (b : GameBoard) (visited : List Coordinate) (current : Coordinate)
      (d : Direction) (rest : List Direction),
      isValidPosition b (coordAdd d.offset (coordAdd d.offset current)) = true →
      spaceOccupant (boardIndex b (coordAdd d.offset (coordAdd d.offset current))) = none →
      coordAdd d.offset (coordAdd d.offset current) ∈ visited →
      jumpLoop b visited current (d :: rest) =
        some (.error .JumpedBackToPrevPosition) := by
  intro b v c d rest h1 h2 h3
  simp only [jumpLoop]
  rw [pieceAt_of_valid _ _ h1, h2, if_pos h3]

/-- Claim C5, witness: a concrete hop landing on an already-visited empty
cell is rejected as `JumpedBackToPrevPosition`. -/
theorem C5_revisit_previous_landing_witness :
    isValidPosition B5w (coordAdd (Direction.offset .East) (coordAdd (Direction.offset .East) ⟨0, 0⟩)) = true ∧
    spaceOccupant (boardIndex B5w (coordAdd (Direction.offset .East) (coordAdd (Direction.offset .East) ⟨0, 0⟩))) = none ∧
    coordAdd (Direction.offset .East) (coordAdd (Direction.offset .East) ⟨0, 0⟩) ∈ [(⟨2, 0⟩ : Coordinate)] ∧
    jumpLoop B5w [⟨2, 0⟩] ⟨0, 0⟩ [.East] =
      some (.error .JumpedBackToPrevPosition) :=
  ⟨by decide, rfl, by decide,
    C5_revisit_previous_landing B5w [⟨2, 0⟩] ⟨0, 0⟩ .East []
      (by decide) rfl (by decide)⟩

/-- Claim C6, counterexample.  On `B6` the hop east from `(0,0)` has a valid,
empty landing `(2,0)` but an in-bounds `Invalid` middle `(1,0)`: the claim
says this fails with `NoPieceJumped` rather than panicking, yet both
validation and `applyAction` panic (the `unwrap` on
`self.piece(middle_pos)`), modelled as `none`. -/
theorem C6_cex_invalid_middle_panics :
    isValidPosition B6 ⟨2, 0⟩ = true ∧
    spaceOccupant (boardIndex B6 ⟨2, 0⟩) = none ∧
    isValidPosition B6 ⟨1, 0⟩ = false ∧
    isValidAction B6 ⟨⟨0, 0⟩, .jump [.East]⟩ = none ∧
    applyAction B6 ⟨⟨0, 0⟩, .jump [.East]⟩ = none := by
  refine ⟨by decide, rfl, by decide, rfl, rfl⟩

/-- Claim C6 (status: corrected).  `piece()` never panics and fails with
`InvalidPosition` on every invalid coordinate; `applyAction` fails with
`InvalidStartPosition` when the start is invalid; a hop whose middle cell is
valid but unoccupied fails `NoPieceJumped`; and for boards and coordinates in
the machine ranges, position validity is exactly membership in
`[0,rows) x [0,columns)` with a non-`Invalid` cell.  (The panic on an invalid
middle cell is the counterexample.) -/
theorem C6_totality_and_no_piece_jumped :
    (∀ (b : GameBoard) (c : Coordinate), pieceAt b c ≠ none) ∧
    (∀ (b : GameBoard) (c : Coordinate), isValidPosition b c = false →
      pieceAt b c = some (.error .InvalidPosition)) ∧
    (∀ (b : GameBoard) (a : Action), isValidPosition b a.startPos = false →
      applyAction b a = some (.error .InvalidStartPosition)) ∧
    (∀ (b : GameBoard) (visited : List Coordinate) (current : Coordinate)
      (d : Direction) (rest : List Direction),
      isValidPosition b (coordAdd d.offset (coordAdd d.offset current)) = true →
      spaceOccupant (boardIndex b (coordAdd d.offset (coordAdd d.offset current))) = none →
      coordAdd d.offset (coordAdd d.offset current) ∉ visited →
      isValidPosition b (coordAdd d.offset current) = true →
      spaceOccupant (boardIndex b (coordAdd d.offset current)) = none →
      jumpLoop b visited current (d :: rest) = some (.error .NoPieceJumped)) ∧
    (∀ (b : GameBoard) (c : Coordinate), b.rows ≤ 2 ^ 32 → b.columns ≤ 2 ^ 32 →
      -(2 ^ 15) ≤ c.row → c.row < 2 ^ 15 → -(2 ^ 15) ≤ c.column → c.column < 2 ^ 15 →
      (isValidPosition b c = true ↔
        (0 ≤ c.row ∧ c.row < (b.rows : Int) ∧ 0 ≤ c.column ∧
          c.column < (b.columns : Int) ∧ boardIndex b c ≠ .Invalid))) := by
  refine ⟨?_, ?_, ?_, ?_, ?_⟩
  · intro b c h
    by_cases hv : isValidPosition b c = true
    · rw [pieceAt_of_valid b c hv] at h
      exact Option.noConfusion h
    · rw [pieceAt_of_invalid b c (by simpa using hv)] at h
      exact Option.noConfusion h
  · intro b c h
    exact pieceAt_of_invalid b c h
  · intro b a h
    unfold applyAction isValidAction
    rw [pieceAt_of_invalid b a.startPos h]
  · intro b v c d rest h1 h2 h3 h4 h5
    simp only [jumpLoop]
    rw [pieceAt_of_valid _ _ h1, h2, if_neg h3, pieceAt_of_valid _ _ h4, h5]
  · intro b c hrows hcols hr1 hr2 hc1 hc2
    simp only [isValidPosition, Bool.and_eq_true, decide_eq_true_eq]
    rw [usizeCast_lt_iff c.column b.columns hcols hc1 hc2,
      usizeCast_lt_iff c.row b.rows hrows hr1 hr2]
    tauto

/-- Claim C6, witness: the totality theorem applied at concrete inputs — an
out-of-range start makes `applyAction` fail with `InvalidStartPosition`, a
valid-but-empty middle yields `NoPieceJumped`, and the range reading of
validity holds on `B6`. -/
theorem C6_totality_witness :
    isValidPosition B6 ⟨5, 0⟩ = false ∧
    applyAction B6 ⟨⟨5, 0⟩, .move .East⟩ = some (.error .InvalidStartPosition) ∧
    jumpLoop B5w [⟨0, 0⟩] ⟨0, 0⟩ [.East] = some (.error .NoPieceJumped) ∧
    (isValidPosition B6 ⟨1, 0⟩ = true ↔
      (0 ≤ (1 : Int) ∧ (1 : Int) < (B6.rows : Int) ∧ 0 ≤ (0 : Int) ∧
        (0 : Int) < (B6.columns : Int) ∧ boardIndex B6 ⟨1, 0⟩ ≠ .Invalid)) :=
  ⟨by decide,
    C6_totality_and_no_piece_jumped.2.2.1 B6 ⟨⟨5, 0⟩, .move .East⟩ (by decide),
    C6_totality_and_no_piece_jumped.2.2.2.1 B5w [⟨0, 0⟩] ⟨0, 0⟩ .East []
      (by decide) rfl (by decide) (by decide) rfl,
    C6_totality_and_no_piece_jumped.2.2.2.2 B6 ⟨1, 0⟩ (by decide) (by decide)
      (by decide) (by decide) (by decide) (by decide)⟩

/-- Claim C7, counterexample.  `R7` has a valid piece catalog and board type
but starting positions referencing the nonexistent catalog index 5:
`Ruleset::verify` still succeeds, because it never calls
`StartingPositions::verify` (nor any victory-condition check), contradicting
the claimed four-stage composition. -/
theorem C7_cex_starting_positions_unchecked :
    Ruleset.verify R7 = .ok () ∧
    StartingPositions.verify R7.startingPositions R7.boardType R7 =
      some (.error (.PieceIndexNotFound 5)) := by
  refine ⟨rfl, rfl⟩

/-- Claim C7 (status: corrected).  `Ruleset::verify` runs only two stages, in
order and short-circuiting: each piece's verification with duplicate
rejection, then `BoardType::verify`; the starting positions and victory
conditions never influence the result, and a ruleset broken in both the piece
catalog and the board type reports only the piece-catalog error. -/
theorem C7_verify_pieces_then_board :
    (∀ (r : Ruleset) (sp : StartingPositions) (vc : List VictoryCondition),
      Ruleset.verify { r with startingPositions := sp, victoryConditions := vc } =
        Ruleset.verify r) ∧
    (∀ (r : Ruleset) (bt : BoardType) (e : RulesetError),
      piecesVerifyLoop [] r.pieces = .error e →
      Ruleset.verify { r with boardType := bt } = .error e) ∧
    (∀ (r : Ruleset), piecesVerifyLoop [] r.pieces = .ok () →
      Ruleset.verify r =
        (match r.boardType.verify with
         | .error e => .error (.BoardTypeVerifyError e)
         | .ok _ => .ok ())) := by
  refine ⟨?_, ?_, ?_⟩
  · intro r sp vc; rfl
  · intro r bt e h
    unfold Ruleset.verify
    rw [show ({ r with boardType := bt } : Ruleset).pieces = r.pieces from rfl, h]
  · intro r h
    unfold Ruleset.verify
    rw [h]

/-- Claim C7, witness: a ruleset with a duplicated catalog entry and an
invalid board type reports only `PieceDuplicated`, and on a passing catalog
the result is exactly the board-type verdict. -/
theorem C7_verify_witness :
    piecesVerifyLoop [] R7dup.pieces = .error (.PieceDuplicated littleDef) ∧
    Ruleset.verify { R7dup with boardType := .Rectangular 0 10 [] } =
      .error (.PieceDuplicated littleDef) ∧
    Ruleset.verify R7 =
      (match R7.boardType.verify with
       | .error e => .error (.BoardTypeVerifyError e)
       | .ok _ => .ok ()) :=
  ⟨rfl,
    C7_verify_pieces_then_board.2.1 R7dup (.Rectangular 0 10 [])
      (.PieceDuplicated littleDef) rfl,
    C7_verify_pieces_then_board.2.2 R7 rfl⟩

/-- Claim C9 (status: confirmed).  The rectangular 10x10 board with goal
columns 4 and 5 classifies `(0,4)` as `Goal(Red)`, `(0,0)` as `Invalid`,
`(1,0)` as `Normal`, `(11,5)` as `Goal(Blue)` and has 12 total rows; in
general a rectangular board has `rows + 2` total rows, row 0 holds
`Goal(Red)` at the goal columns and `Invalid` at every other column, row
`rows + 1` holds `Goal(Blue)` likewise, and every interior cell is
`Normal`. -/
theorem C9_rectangular_topology :
    (BoardType.getSpace (.Rectangular 10 10 [4, 5]) ⟨0, 4⟩ = .Goal .Red ∧
     BoardType.getSpace (.Rectangular 10 10 [4, 5]) ⟨0, 0⟩ = .Invalid ∧
     BoardType.getSpace (.Rectangular 10 10 [4, 5]) ⟨1, 0⟩ = .Normal ∧
     BoardType.getSpace (.Rectangular 10 10 [4, 5]) ⟨11, 5⟩ = .Goal .Blue ∧
     BoardType.rowsOf (.Rectangular 10 10 [4, 5]) = 12) ∧
    (∀ (rows cols : Nat) (goals : List Int),
      (∀ g ∈ goals, 0 ≤ g ∧ g < (cols : Int)) →
      (∀ col : Int, BoardType.getSpace (.Rectangular rows cols goals) ⟨0, col⟩ =
        if col ∈ goals then .Goal .Red else .Invalid) ∧
      (∀ col : Int,
        BoardType.getSpace (.Rectangular rows cols goals) ⟨(rows : Int) + 1, col⟩ =
          if col ∈ goals then .Goal .Blue else .Invalid) ∧
      (∀ row col : Int, 1 ≤ row → row ≤ (rows : Int) → 0 ≤ col →
        col < (cols : Int) →
        BoardType.getSpace (.Rectangular rows cols goals) ⟨row, col⟩ = .Normal) ∧
      BoardType.rowsOf (.Rectangular rows cols goals) = rows + 2) := by
  refine ⟨⟨by decide, by decide, by decide, by decide, rfl⟩, ?_⟩
  intro rows cols goals hg
  refine ⟨?_, ?_, ?_, rfl⟩
  · intro col
    by_cases hmem : col ∈ goals
    · obtain ⟨h0, h1⟩ := hg col hmem
      simp only [BoardType.getSpace]
      rw [if_neg (by omega)]
      simp [hmem]
    · by_cases hcol : (cols : Int) ≤ col
      · simp only [BoardType.getSpace]
        rw [if_pos (Or.inr hcol), if_neg hmem]
      · simp only [BoardType.getSpace]
        rw [if_neg (by omega)]
        simp [hmem]
  · intro col
    by_cases hmem : col ∈ goals
    · obtain ⟨h0, h1⟩ := hg col hmem
      have hne : ¬((rows : Int) + 1 = 0) := by omega
      simp only [BoardType.getSpace]
      rw [if_neg (by omega)]
      simp [hmem, hne]
    · by_cases hcol : (cols : Int) ≤ col
      · simp only [BoardType.getSpace]
        rw [if_pos (Or.inr hcol), if_neg hmem]
      · simp only [BoardType.getSpace]
        rw [if_neg (by omega)]
        simp [hmem]
  · intro row col h1 h2 h3 h4
    simp only [BoardType.getSpace]
    rw [if_neg (by omega), if_neg (by omega)]

/-- Claim C9, witness: the general rectangular characterization applied at
the standard board — an interior cell is `Normal`, a border cell at a goal
column is a goal. -/
theorem C9_rectangular_topology_witness :
    (∀ g ∈ ([4, 5] : List Int), 0 ≤ g ∧ g < (10 : Int)) ∧
    BoardType.getSpace (.Rectangular 10 10 [4, 5]) ⟨3, 7⟩ = .Normal ∧
    BoardType.getSpace (.Rectangular 10 10 [4, 5]) ⟨11, 4⟩ =
      (if (4 : Int) ∈ ([4, 5] : List Int) then .Goal .Blue else .Invalid) :=
  ⟨by decide,
    (C9_rectangular_topology.2 10 10 [4, 5] (by decide)).2.2.1 3 7
      (by norm_num) (by norm_num) (by norm_num) (by norm_num),
    (C9_rectangular_topology.2 10 10 [4, 5] (by decide)).2.1 4⟩

/-- Claim C1 (status: code_bug).  On `B1`, the single south-east jump from
`(0,0)` validates with landing `(2,1)`; `apply_action` succeeds, reports
exactly the one opposing middle piece to the capture callback, but — because
the final position is computed as `offset * 2 + position` with the `Add` that
drops the right operand's column — writes the jumper to `(2,2)`, silently
deleting `LargeBlue` there and leaving the validated landing `(2,1)` empty:
the piece count drops from 3 to 1 although only one capture was reported. -/
theorem C1_jump_apply_miscounts :
    pieceCount B1 = 3 ∧
    isValidAction B1 A1 = some (.ok ()) ∧
    applyAction B1 A1 = some (.ok (B1after, [(⟨1, 1⟩, .SmallBlue)])) ∧
    pieceCount B1after = 1 ∧
    spaceOccupant (boardIndex B1after ⟨2, 1⟩) = none ∧
    spaceOccupant (boardIndex B1after ⟨2, 2⟩) = some .SmallRed ∧
    jumpLoop B1 [⟨0, 0⟩] ⟨0, 0⟩ [.SouthEast] = some (.ok ()) ∧
    coordAdd (Direction.offset .SouthEast)
      (coordAdd (Direction.offset .SouthEast) ⟨0, 0⟩) = ⟨2, 1⟩ := by
  refine ⟨by decide, rfl, rfl, by decide, rfl, rfl, rfl, rfl⟩

/-- Claim C10 (status: code_bug).  On the rectangular board `BT10`, the
singleton placement set `{(1,0)}` is in-bounds, duplicate-free and distinct
from its flip image `(2,0)`, so the claim says verification passes; the
source initializes `found` as a clone of the position set, so the first
membership probe always reports `PositionCollision`. -/
theorem C10_mirrored_area_always_collides :
    flipCoordinate BT10 ⟨1, 0⟩ = ⟨2, 0⟩ ∧
    (⟨2, 0⟩ : Coordinate) ≠ ⟨1, 0⟩ ∧
    (0 ≤ (1 : Int) ∧ (1 : Int) < (BT10.rowsOf : Int) ∧ 0 ≤ (0 : Int) ∧
      (0 : Int) < (BT10.columnsOf : Int)) ∧
    PlacementArea.verify (.MirroredFlipped [⟨1, 0⟩]) BT10 =
      .error (.PositionCollision ⟨1, 0⟩) := by
  refine ⟨rfl, by decide, by decide, rfl⟩

end Kapto
